import Mathlib

/-!
Shallow embedding of the h3forge core (`src/h3forge/features/vector_to_h3.py`
and `src/h3forge/features/h3_aggregation.py`).

Modelling conventions:

* H3 cell identifiers are modelled as the 64-bit integers of the H3 index
  layout (resolution in bits 52-55, one 3-bit digit per resolution, digit `i`
  at bit offset `3*(15-i)`), as natural numbers.  `cell_to_parent` follows the
  H3 library's `cellToParent`: error `E_RES_DOMAIN` for a parent resolution
  above 15, `E_RES_MISMATCH` for a parent resolution finer than the cell's
  own, identity at equal resolution, otherwise set the resolution field and
  set the digits below the parent resolution to 7.  (The Python code uses the
  `h3` v4 string API; a valid cell renders as a fixed-width 15-digit lowercase
  hex string, so the lexicographic string order used by pandas coincides with
  the numeric order used here.)
* In h3-py v4 the resolution errors `H3ResDomainError` / `H3ResMismatchError`
  derive from `H3ValueError`, which multiply inherits Python's `ValueError`;
  `AggError.isValueErrorClass` records which of our error values are
  `ValueError`s in Python's sense.
* DataFrames are lists of rows.  The columns that the aggregation code
  touches by name (`hex`, `date`, plus one numeric attribute column `value`)
  are modelled as row fields together with frame-level presence flags; a
  `none` in `date`/`value` is a null (NaN) cell.  Numeric values are exact
  rationals; the concrete scenarios proved below only involve values on which
  binary floating point is exact.
* `pd.to_datetime` on the date strings occurring here ("YYYY", "YYYY-MM",
  "YYYY-MM-DD") is modelled by `parseYMD`, and `.dt.strftime` by
  `fmtY`/`fmtYM`/`fmtYMD`.  Unparsable strings raise `ValueError`, `none`
  propagates as NaT/NaN.
* `groupby` follows pandas defaults: rows whose group key contains a null are
  dropped (`dropna=True`); one output row per distinct key.  The order in
  which the groups are produced is immaterial because the pipeline ends with
  a full sort on the (unique) group keys.
* The geometric primitives that the code takes from the `h3`/`shapely`
  libraries (`cell_to_boundary` composed with the lat/lng swap and `Polygon`,
  `intersects`, `is_valid`, `geo_to_cells`) are kept abstract as fields of a
  `GeoModel`, since the claims under verification quantify over their
  behaviour rather than depend on concrete geometry.
-/

namespace H3Forge

instance {ε α : Type} [DecidableEq ε] [DecidableEq α] : DecidableEq (Except ε α) := fun x y =>
  match x, y with
  | .error e, .error e' => decidable_of_iff (e = e') (by constructor <;> (intro h; cases h; rfl))
  | .ok a, .ok a' => decidable_of_iff (a = a') (by constructor <;> (intro h; cases h; rfl))
  | .error _, .ok _ => isFalse (by intro h; cases h)
  | .ok _, .error _ => isFalse (by intro h; cases h)

/-- Python exception kinds that the two functions can raise.  `valueError`
covers the explicit `raise ValueError` statements and pandas date-parse
errors; the two `h3Res*` constructors are the h3-py resolution errors (which
are also `ValueError`s in h3-py v4, see `AggError.isValueErrorClass`);
`keyError` is the pandas `KeyError` for a missing column; `attrError` is the
`AttributeError` pandas raises for an unknown aggregation strategy name. -/
inductive AggError where
  | valueError
  | keyError
  | attrError
  | h3ResDomain
  | h3ResMismatch
deriving DecidableEq

/-- Which of our error values are instances of Python's `ValueError`.  In
h3-py v4, `H3ResDomainError` and `H3ResMismatchError` derive from
`H3ValueError`, which inherits from both `H3BaseException` and the builtin
`ValueError`. -/
def AggError.isValueErrorClass : AggError → Bool
  | .valueError => true
  | .h3ResDomain => true
  | .h3ResMismatch => true
  | _ => false

/-- Resolution field of an H3 index (bits 52-55). -/
def h3GetResolution (h : Nat) : Nat := (h >>> 52) % 16

/-- Overwrite the resolution field (bits 52-55) of an H3 index. -/
def h3SetResolution (h : Nat) (r : Nat) : Nat :=
  (h / 2 ^ 56) * 2 ^ 56 + r * 2 ^ 52 + h % 2 ^ 52

/-- Set index digit `i` (3 bits at offset `3*(15-i)`) of an H3 index to 7,
the `INVALID_DIGIT` marker used for digits below a cell's resolution. -/
def h3SetDigit7 (h : Nat) (i : Nat) : Nat :=
  (h / 2 ^ (3 * (15 - i) + 3)) * 2 ^ (3 * (15 - i) + 3) + 7 * 2 ^ (3 * (15 - i)) + h % 2 ^ (3 * (15 - i))

/-- Set digits `lo, lo+1, ..., lo+n-1` of an H3 index to 7. -/
def h3SetDigits7From (lo : Nat) : Nat → Nat → Nat
  | 0, h => h
  | n + 1, h => h3SetDigits7From (lo + 1) n (h3SetDigit7 h lo)

/-- `h3.cell_to_parent(h, parentRes)` of the h3 library (v4): the H3 core
`cellToParent`.  Fails with `H3ResDomainError` when the requested resolution
is outside the grid range, with `H3ResMismatchError` when it is finer than
the cell's own resolution; at equal resolution the cell itself is returned. -/
def cell_to_parent (h : Nat) (parentRes : Nat) : Except AggError Nat :=
  if 15 < parentRes then .error .h3ResDomain
  else if h3GetResolution h < parentRes then .error .h3ResMismatch
  else if h3GetResolution h = parentRes then .ok h
  else .ok (h3SetDigits7From (parentRes + 1) (h3GetResolution h - parentRes) (h3SetResolution h parentRes))

/-- A parsed calendar date (what `pd.to_datetime` produces on the strings
used in this pipeline). -/
structure PDate where
  y : Nat
  m : Nat
  d : Nat
deriving DecidableEq

/-- Range validation performed by `pd.to_datetime`. -/
def mkPDate (y m d : Nat) : Except AggError PDate :=
  if 1 ≤ m ∧ m ≤ 12 ∧ 1 ≤ d ∧ d ≤ 31 then .ok ⟨y, m, d⟩ else .error .valueError

/-- Split a character list at every '-' (the behaviour of
`String.splitOn "-"` on the date strings of this pipeline). -/
def splitDash : List Char → List (List Char)
  | [] => [[]]
  | c :: rest =>
    if c = '-' then [] :: splitDash rest
    else
      match splitDash rest with
      | [] => [[c]]
      | g :: gs => (c :: g) :: gs

/-- Parse a non-empty all-digit character list as a natural number (the
behaviour of `String.toNat?` on each dash-separated date component). -/
def digitsToNat? (cs : List Char) : Option Nat :=
  if cs.isEmpty then none
  else if cs.all Char.isDigit then
    some (cs.foldl (fun acc c => 10 * acc + (c.toNat - 48)) 0)
  else none

/-- `pd.to_datetime` on a date string: accepts "YYYY" (January 1st),
"YYYY-MM" (first of the month) and "YYYY-MM-DD"; anything else raises a
parse error, which is a `ValueError`. -/
def parseYMD (s : String) : Except AggError PDate :=
  match (splitDash s.toList).map digitsToNat? with
  | [some y] => mkPDate y 1 1
  | [some y, some m] => mkPDate y m 1
  | [some y, some m, some d] => mkPDate y m d
  | _ => .error .valueError

/-- Zero-pad to two digits (strftime `%m` / `%d`). -/
def pad2 (n : Nat) : String := if n < 10 then ("0" ++ toString n) else toString n

/-- Zero-pad to four digits (strftime `%Y`). -/
def pad4 (n : Nat) : String :=
  if n < 10 then ("000" ++ toString n)
  else if n < 100 then ("00" ++ toString n)
  else if n < 1000 then ("0" ++ toString n)
  else toString n

/-- strftime `%Y`. -/
def fmtY (dt : PDate) : String := pad4 dt.y

/-- strftime `%Y-%m`. -/
def fmtYM (dt : PDate) : String := fmtY dt ++ "-" ++ pad2 dt.m

/-- strftime `%Y-%m-%d`. -/
def fmtYMD (dt : PDate) : String := fmtYM dt ++ "-" ++ pad2 dt.d

/-- Left-to-right effectful map over a list in the `Except` monad: the
semantics of applying a fallible operation to a pandas column (the first
failing element aborts the whole call). -/
def exMapM (f : α → Except ε β) : List α → Except ε (List β)
  | [] => .ok []
  | a :: l =>
    match f a with
    | .error e => .error e
    | .ok b =>
      match exMapM f l with
      | .error e => .error e
      | .ok bs => .ok (b :: bs)

/-- One row of the hex-indexed input frame of `h3_aggregation`: the `hex`
column (an H3 cell id), the `date` column (null allowed) and the single
numeric attribute column `value` (null allowed). -/
structure HexRow where
  hex : Nat
  date : Option String
  value : Option ℚ
deriving DecidableEq

/-- The input GeoDataFrame of `h3_aggregation`.  The flags record which of
the named columns are present in the frame (the rows carry a field either
way; it is only meaningful when the corresponding flag is set). -/
structure HexFrame where
  hasHexCol : Bool
  hasDateCol : Bool
  hasValueCol : Bool
  rows : List HexRow
deriving DecidableEq

/-- The geometric primitives the code takes from the `h3` and `shapely`
libraries, kept abstract.  `cellBoundary` is `h3.cell_to_boundary` composed
with the (lat, lng) swap and `shapely.Polygon`; `geo_to_cells` is
`h3.geo_to_cells` (which may raise). -/
structure GeoModel (G : Type) where
  cellBoundary : Nat → G
  intersects : G → G → Bool
  is_valid : G → Bool
  geo_to_cells : G → Nat → Except String (List Nat)

/-- One output row of `h3_aggregation`: the parent cell (`hex` column after
the rename), the `date` column, the aggregated `value` (null when absent or
when the reduction of an all-null group is null), the `count` column and the
optional reconstructed geometry. -/
structure OutRow (G : Type) where
  hex : Nat
  date : String
  value : Option ℚ
  count : Nat
  geometry : Option G
deriving DecidableEq

/-- Strict code-point lexicographic order on character lists: the order in
which Python (and hence pandas) compares strings. -/
def charListLt : List Char → List Char → Bool
  | [], [] => false
  | [], _ :: _ => true
  | _ :: _, [] => false
  | a :: as, b :: bs => if a < b then true else if b < a then false else charListLt as bs

/-- Strict string order as pandas `sort_values` compares string columns. -/
def strLt (s t : String) : Bool := charListLt s.toList t.toList

/-- The sort key of the final `sort_values(by=['date', 'hex'])`: ascending
on the date string, then on the cell id.  (pandas compares the `hex` column
as strings; on the fixed-width 15-hex-digit renderings of valid H3 indexes
that order agrees with the numeric order used here.) -/
def rowLe {G : Type} (r1 r2 : OutRow G) : Prop :=
  strLt r1.date r2.date = true ∨ (r1.date = r2.date ∧ r1.hex ≤ r2.hex)

instance {G : Type} : DecidableRel (@rowLe G) := fun r1 r2 => by
  unfold rowLe; infer_instance

/-- Group-key computation of `h3_aggregation` (lines 60-78): with time
aggregation, `pd.to_datetime` on the `date` column followed by the
granularity dispatch (`strftime` per row, unknown granularity raises
`ValueError`); without it, the raw `date` column is part of the group key
(line 78: `group_cols = ['parent_hex','date']`), raising `KeyError` at the
`groupby` when that column is missing.  Each element is paired with its
group key `(parent_hex, date-or-time_group)`, `none` when the key contains
a null. -/
def computeKeys (hasDateCol : Bool) (time_agg : Option String)
    (wp : List (HexRow × Nat)) : Except AggError (List (Option (Nat × String) × HexRow)) :=
  match time_agg with
  | none =>
    if hasDateCol then
      .ok (wp.map (fun rp => (rp.1.date.map (fun s => (rp.2, s)), rp.1)))
    else .error .keyError
  | some tg =>
    match exMapM (fun rp : HexRow × Nat =>
        match rp.1.date with
        | none => .ok ((none : Option PDate), rp)
        | some s => Except.map (fun dt => (some dt, rp)) (parseYMD s)) wp with
    | .error e => .error e
    | .ok parsed =>
      match (if tg = "daily" then .ok fmtYMD
             else if tg = "monthly" then .ok fmtYM
             else if tg = "yearly" then .ok fmtY
             else .error .valueError : Except AggError (PDate → String)) with
      | .error e => .error e
      | .ok fmt => .ok (parsed.map (fun pr => (pr.1.map (fun dt => (pr.2.2, fmt dt)), pr.2.1)))

/-- pandas `groupby` with default `dropna=True`: rows whose key is null are
dropped; one group per distinct key. -/
def pdGroupBy {K R : Type} [DecidableEq K] (l : List (Option K × R)) : List (K × List R) :=
  ((l.filterMap Prod.fst).dedup).map
    (fun k => (k, (l.filter (fun p => decide (p.1 = some k))).map Prod.snd))

/-- pandas raises `AttributeError` at `.agg` when the strategy string names
no aggregation function; the check only fires when there is a numeric column
to aggregate (otherwise the code only counts). -/
def checkStrategy (hasValueCol : Bool) (strategy : String) : Except AggError Unit :=
  if hasValueCol ∧ ¬(strategy = "mean" ∨ strategy = "sum" ∨ strategy = "min" ∨ strategy = "max")
  then .error .attrError else .ok ()

/-- Leftmost-seeded fold for `min` (pandas `min` of the present values). -/
def listMin? : List ℚ → Option ℚ
  | [] => none
  | v :: vs => some (vs.foldl min v)

/-- Leftmost-seeded fold for `max`. -/
def listMax? : List ℚ → Option ℚ
  | [] => none
  | v :: vs => some (vs.foldl max v)

/-- The pandas reduction of the non-null values of a group under the named
strategy: `mean` is the arithmetic mean of the present values (NaN when none
are present), `sum` of no values is 0 (pandas `min_count=0` default),
`min`/`max` of no values are NaN. -/
def stratFun (strategy : String) (vs : List ℚ) : Option ℚ :=
  if strategy = "mean" then (if vs.isEmpty then none else some (vs.sum / (vs.length : ℚ)))
  else if strategy = "sum" then some vs.sum
  else if strategy = "min" then listMin? vs
  else if strategy = "max" then listMax? vs
  else none

/-- One aggregated output row from a group: key `(parent cell, date key)`,
reduced `value` (only when the numeric column exists), `count` = group size
(the `'hex': 'count'` aggregation; `hex` is never null). -/
def mkAggRow {G : Type} (hasValueCol : Bool) (strategy : String)
    (kg : (Nat × String) × List HexRow) : OutRow G :=
  { hex := kg.1.1
    date := kg.1.2
    value := if hasValueCol then stratFun strategy (kg.2.filterMap HexRow.value) else none
    count := kg.2.length
    geometry := none }

/-- `agg_df['geometry'] = agg_df['hex'].apply(hex_to_polygon)`. -/
def addGeom {G : Type} (gm : GeoModel G) (r : OutRow G) : OutRow G :=
  { r with geometry := some (gm.cellBoundary r.hex) }

/-- The region filter predicate `result_gdf.intersects(region)` on a row. -/
def regionPred {G : Type} (gm : GeoModel G) (reg : G) (r : OutRow G) : Bool :=
  match r.geometry with
  | some g => gm.intersects g reg
  | none => false

/-- Lines 128-129: after renaming `time_group` back to `date`, the column is
re-parsed with `pd.to_datetime` and re-rendered with `strftime('%Y-%m-%d')`
(so a monthly or yearly bucket label becomes the first day of its bucket). -/
def restoreRow {G : Type} (r : OutRow G) : Except AggError (OutRow G) :=
  match parseYMD r.date with
  | .error e => .error e
  | .ok dt => .ok { r with date := fmtYMD dt }

/-- The date-restore step runs only when time aggregation was requested. -/
def restoreDates {G : Type} (time_agg : Option String) (rows : List (OutRow G)) :
    Except AggError (List (OutRow G)) :=
  match time_agg with
  | none => .ok rows
  | some _ => exMapM restoreRow rows

/-- Geometry reconstruction (lines 108-120) and region filter (lines
122-124) of `h3_aggregation`: geometry is added only when requested, and the
region filter applies only when the geometry was reconstructed. -/
def applyGeomAndRegion {G : Type} (gm : GeoModel G) (region : Option G)
    (include_geometry : Bool) (aggRows : List (OutRow G)) : List (OutRow G) :=
  let geoRows := if include_geometry then aggRows.map (addGeom gm) else aggRows
  if include_geometry then
    match region with
    | some reg => geoRows.filter (regionPred gm reg)
    | none => geoRows
  else geoRows

/-- `h3_aggregation` (src/h3forge/features/h3_aggregation.py) up to but not
including the final sort: column checks (lines 49-54), parent computation
(line 57), group keys (lines 60-78), grouping and reduction (lines 80-105),
geometry reconstruction (lines 108-120), region filter (lines 122-124) and
date restoration (lines 126-129). -/
def h3_aggregation_unsorted {G : Type} (gm : GeoModel G) (hexes : HexFrame)
    (region : Option G) (resolution : Nat) (time_agg : Option String)
    (strategy : String) (include_geometry : Bool) : Except AggError (List (OutRow G)) :=
  if hexes.hasHexCol = false then .error .valueError
  else if time_agg.isSome = true ∧ hexes.hasDateCol = false then .error .valueError
  else
    match exMapM (fun r => Except.map (fun p => (r, p)) (cell_to_parent r.hex resolution)) hexes.rows with
    | .error e => .error e
    | .ok wp =>
      match computeKeys hexes.hasDateCol time_agg wp with
      | .error e => .error e
      | .ok keyed =>
        match checkStrategy hexes.hasValueCol strategy with
        | .error e => .error e
        | .ok _ =>
          restoreDates time_agg
            (applyGeomAndRegion gm region include_geometry
              ((pdGroupBy keyed).map (mkAggRow hexes.hasValueCol strategy)))

/-- `h3_aggregation` of src/h3forge/features/h3_aggregation.py: empty input
returns an empty frame immediately (line 42); otherwise the pipeline above
followed by `sort_values(by=['date', 'hex'])` (line 133). -/
def h3_aggregation {G : Type} (gm : GeoModel G) (hexes : HexFrame) (region : Option G)
    (resolution : Nat) (time_agg : Option String) (strategy : String)
    (include_geometry : Bool) : Except AggError (List (OutRow G)) :=
  if hexes.rows.isEmpty then .ok []
  else Except.map (List.insertionSort rowLe)
    (h3_aggregation_unsorted gm hexes region resolution time_agg strategy include_geometry)

/-- One row of the input GeoDataFrame of `vector_to_h3`: a geometry (possibly
missing) and the remaining attributes, kept abstract. -/
structure GeomRow (G A : Type) where
  geometry : Option G
  attrs : A
deriving DecidableEq

/-- One output row of `vector_to_h3`: the source row's attributes, the H3
cell id, and the reconstructed cell geometry when requested. -/
structure VecOutRow (G A : Type) where
  attrs : A
  hex : Nat
  geometry : Option G
deriving DecidableEq

/-- The body of the per-feature loop of `vector_to_h3` (lines 39-75): a
missing or invalid geometry is skipped, `h3.geo_to_cells` is called inside a
`try` whose handler also skips the feature, and each returned cell yields one
output row copying the feature's attributes. -/
def expandRow {G A : Type} (gm : GeoModel G) (resolution : Nat) (include_geometry : Bool)
    (row : GeomRow G A) : List (VecOutRow G A) :=
  match row.geometry with
  | none => []
  | some g =>
    if gm.is_valid g = false then []
    else
      match gm.geo_to_cells g resolution with
      | .error _ => []
      | .ok cells =>
        cells.map (fun c =>
          { attrs := row.attrs
            hex := c
            geometry := if include_geometry then some (gm.cellBoundary c) else none })

/-- `vector_to_h3` of src/h3forge/features/vector_to_h3.py: per-feature
expansion, empty-result shortcut (line 78), and the region filter, which is
applied only when geometries were materialized (line 92). -/
def vector_to_h3 {G A : Type} (gm : GeoModel G) (gdf : List (GeomRow G A))
    (resolution : Nat) (region : Option G) (include_geometry : Bool) : List (VecOutRow G A) :=
  if gdf.isEmpty then []
  else
    let h3_rows := gdf.foldr (fun row acc => expandRow gm resolution include_geometry row ++ acc) []
    if h3_rows.isEmpty then []
    else
      match region, include_geometry with
      | some reg, true =>
        h3_rows.filter (fun r =>
          match r.geometry with
          | some g => gm.intersects g reg
          | none => false)
      | _, _ => h3_rows

/-- A pandas object as it exists on the Python heap during `h3_aggregation`:
the input frame (or its line-46 copy), the copy after the `parent_hex` column
assignment, the copy after the `datetime`/`time_group` column assignments, or
an aggregated frame (`agg_df` / `result_gdf`). -/
inductive PdObj (G : Type) where
  | hexDF (f : HexFrame)
  | parentedDF (f : HexFrame) (wp : List (HexRow × Nat))
  | keyedDF (f : HexFrame) (wp : List (HexRow × Nat)) (keyed : List (Option (Nat × String) × HexRow))
  | outDF (rows : List (OutRow G))

/-- Store-level rendering of `h3_aggregation`: the heap is a list of pandas
objects and `hexesRef` the caller's reference to the input frame.  Line 46
(`df = hexes.copy()`) allocates a fresh cell; every subsequent in-place
operation (`df[...] = ...` column assignments, `inplace=True` renames, the
`agg_df['geometry']` assignment, `sort_values(..., inplace=True)`) is a store
update of the cell it targets; `groupby(...).agg(...).reset_index()`
allocates a fresh frame, `gpd.GeoDataFrame(agg_df, ...)` aliases it, and the
region-filter line rebinds `result_gdf` to a freshly allocated frame.  The
returned value is the same as `h3_aggregation`'s. -/
def h3_aggregation_mut {G : Type} (gm : GeoModel G) (heap : List (PdObj G)) (hexesRef : Nat)
    (region : Option G) (resolution : Nat) (time_agg : Option String) (strategy : String)
    (include_geometry : Bool) : List (PdObj G) × Except AggError (List (OutRow G)) :=
  match heap[hexesRef]? with
  | some (.hexDF hexes) =>
    if hexes.rows.isEmpty then (heap, .ok [])
    else
      let dfRef := heap.length
      let h1 := heap ++ [PdObj.hexDF hexes]
      if hexes.hasHexCol = false then (h1, .error .valueError)
      else if time_agg.isSome = true ∧ hexes.hasDateCol = false then (h1, .error .valueError)
      else
        match exMapM (fun r => Except.map (fun p => (r, p)) (cell_to_parent r.hex resolution)) hexes.rows with
        | .error e => (h1, .error e)
        | .ok wp =>
          let h2 := h1.set dfRef (.parentedDF hexes wp)
          match computeKeys hexes.hasDateCol time_agg wp with
          | .error e => (h2, .error e)
          | .ok keyed =>
            let h3 := h2.set dfRef (.keyedDF hexes wp keyed)
            match checkStrategy hexes.hasValueCol strategy with
            | .error e => (h3, .error e)
            | .ok _ =>
              let aggRows : List (OutRow G) := (pdGroupBy keyed).map (mkAggRow hexes.hasValueCol strategy)
              let aggRef := h3.length
              let h4 := h3 ++ [PdObj.outDF aggRows]
              let h5 := h4.set aggRef (.outDF aggRows)
              let geoRows := if include_geometry then aggRows.map (addGeom gm) else aggRows
              let h6 := h5.set aggRef (.outDF geoRows)
              let filtered :=
                if include_geometry then
                  match region with
                  | some reg => geoRows.filter (regionPred gm reg)
                  | none => geoRows
                else geoRows
              let resRef := if region.isSome && include_geometry then h6.length else aggRef
              let h7 := if region.isSome && include_geometry then h6 ++ [PdObj.outDF filtered] else h6
              match restoreDates time_agg filtered with
              | .error e => (h7, .error e)
              | .ok restored =>
                let h8 := h7.set resRef (.outDF restored)
                let h9 := h8.set resRef (.outDF (List.insertionSort rowLe restored))
                (h9, .ok (List.insertionSort rowLe restored))
  | _ => (heap, .error .keyError)

/-- A pandas object on the heap during `vector_to_h3`: the input frame or a
result frame. -/
inductive PdObjV (G A : Type) where
  | geomDF (rows : List (GeomRow G A))
  | vecDF (rows : List (VecOutRow G A))

/-- Store-level rendering of `vector_to_h3`: the input frame is only read
(each emitted row is built from a fresh copy of the input row's attributes,
line 57); the result frame is freshly allocated, and the region-filter line
rebinds `result_gdf` to another fresh frame.  No store update targets an
existing cell. -/
def vector_to_h3_mut {G A : Type} (gm : GeoModel G) (heap : List (PdObjV G A)) (gdfRef : Nat)
    (resolution : Nat) (region : Option G) (include_geometry : Bool) :
    List (PdObjV G A) × List (VecOutRow G A) :=
  match heap[gdfRef]? with
  | some (.geomDF gdf) =>
    let unfiltered := vector_to_h3 gm gdf resolution none include_geometry
    let out := vector_to_h3 gm gdf resolution region include_geometry
    let h1 := heap ++ [PdObjV.vecDF unfiltered]
    let h2 := if region.isSome && include_geometry then h1 ++ [PdObjV.vecDF out] else h1
    (h2, out)
  | _ => (heap, [])

/-- Validity test of the per-feature skip in `vector_to_h3` (line 43):
a feature passes when it has a geometry and that geometry `is_valid`. -/
def vrowOk {G A : Type} (gm : GeoModel G) (row : GeomRow G A) : Bool :=
  match row.geometry with
  | none => false
  | some g => gm.is_valid g

/-- Trivial geometry model (geometries carry no information); used for the
concrete evaluations that do not exercise the region filter. -/
def gmUnit : GeoModel Unit :=
  { cellBoundary := fun _ => ()
    intersects := fun _ _ => true
    is_valid := fun _ => true
    geo_to_cells := fun _ _ => .ok [] }

/-- Geometry model whose geometries are cell ids: a cell's boundary is the
id itself, two geometries intersect exactly when equal, every geometry is
valid and covers its own id.  Used to exercise the region filter concretely. -/
def gmNat : GeoModel Nat :=
  { cellBoundary := fun c => c
    intersects := fun g r => decide (g = r)
    is_valid := fun _ => true
    geo_to_cells := fun g _ => .ok [g] }

/-- A structurally valid resolution-10 H3 index: mode 1, base cell 20,
digits 1-10 zero, digits 11-15 set to 7. -/
def cell10a : Nat := 2 ^ 59 + 10 * 2 ^ 52 + 20 * 2 ^ 45 + (2 ^ 15 - 1)

/-- Sibling of `cell10a` (digit 10 = 1). -/
def cell10b : Nat := cell10a + 2 ^ 15

/-- Sibling of `cell10a` (digit 10 = 2). -/
def cell10c : Nat := cell10a + 2 * 2 ^ 15

/-- The common resolution-8 ancestor of `cell10a`, `cell10b`, `cell10c`:
same base cell and digits 1-8, digits 9-15 set to 7. -/
def cell8 : Nat := 2 ^ 59 + 8 * 2 ^ 52 + 20 * 2 ^ 45 + (2 ^ 21 - 1)

/-- One resolution-8 hex feature with a date (used against target
resolutions 8 and 10). -/
def frameRes8 : HexFrame :=
  { hasHexCol := true, hasDateCol := true, hasValueCol := false
    rows := [{ hex := cell8, date := some ("2020-01-10"), value := none }] }

/-- The end-to-end scenario input: three resolution-10 features sharing one
resolution-8 ancestor, identical date, `value` = 10.0 / 20.0 / null. -/
def frameScenario : HexFrame :=
  { hasHexCol := true, hasDateCol := true, hasValueCol := true
    rows := [{ hex := cell10a, date := some ("2020-01-10"), value := some 10 },
             { hex := cell10b, date := some ("2020-01-10"), value := some 20 },
             { hex := cell10c, date := some ("2020-01-10"), value := none }] }

/-- One feature dated 2020-01-15 (date-truncation counterexample input). -/
def frameJan15 : HexFrame :=
  { hasHexCol := true, hasDateCol := true, hasValueCol := false
    rows := [{ hex := cell10a, date := some ("2020-01-15"), value := none }] }

/-- Two features in the same month (and year) but on different days. -/
def frameSameMonth : HexFrame :=
  { hasHexCol := true, hasDateCol := true, hasValueCol := false
    rows := [{ hex := cell10a, date := some ("2020-01-15"), value := none },
             { hex := cell10b, date := some ("2020-01-20"), value := none }] }

/-- Two features with the same resolution-8 parent but different dates. -/
def frameTwoDates : HexFrame :=
  { hasHexCol := true, hasDateCol := true, hasValueCol := false
    rows := [{ hex := cell10a, date := some ("2020-01-02"), value := none },
             { hex := cell10b, date := some ("2020-01-01"), value := none }] }

/-- One feature whose `date` is null. -/
def frameNullDate : HexFrame :=
  { hasHexCol := true, hasDateCol := true, hasValueCol := false
    rows := [{ hex := cell10a, date := none, value := none }] }

/-- Aggregating `frameTwoDates` with `time_agg=None` (trivial geometries). -/
def outTwoDatesU : List (OutRow Unit) :=
  [{ hex := cell8, date := "2020-01-01", value := none, count := 1, geometry := none },
   { hex := cell8, date := "2020-01-02", value := none, count := 1, geometry := none }]

/-- Aggregating `frameTwoDates` with `time_agg=None` over `gmNat`, without
geometry. -/
def outTwoDatesN : List (OutRow Nat) :=
  [{ hex := cell8, date := "2020-01-01", value := none, count := 1, geometry := none },
   { hex := cell8, date := "2020-01-02", value := none, count := 1, geometry := none }]

/-- Aggregating `frameTwoDates` with `time_agg=None` over `gmNat`, with
geometry reconstructed. -/
def outTwoDatesGeo : List (OutRow Nat) :=
  [{ hex := cell8, date := "2020-01-01", value := none, count := 1, geometry := some cell8 },
   { hex := cell8, date := "2020-01-02", value := none, count := 1, geometry := some cell8 }]

/-- One input feature for `vector_to_h3` over `gmNat` (geometry id 5). -/
def gdfOne : List (GeomRow Nat Unit) := [{ geometry := some 5, attrs := () }]

/-- Geometry model over `Nat` in which geometry 0 is topologically invalid. -/
def gmNatV : GeoModel Nat :=
  { cellBoundary := fun c => c
    intersects := fun g r => decide (g = r)
    is_valid := fun g => decide (g ≠ 0)
    geo_to_cells := fun g _ => .ok [g] }

/-- A mixed input for `vector_to_h3`: an invalid geometry, a valid one, and
a missing one. -/
def gdfMixed : List (GeomRow Nat Nat) :=
  [{ geometry := some 0, attrs := 1 },
   { geometry := some 5, attrs := 2 },
   { geometry := none, attrs := 3 }]

theorem expandRow_eq_nil_of_not_ok {G A : Type} (gm : GeoModel G) (resolution : Nat)
    (include_geometry : Bool) (row : GeomRow G A) (h : vrowOk gm row = false) :
    expandRow gm resolution include_geometry row = [] := by
  unfold vrowOk at h
  unfold expandRow
  cases hg : row.geometry with
  | none => rfl
  | some g =>
    simp only [hg] at h ⊢
    rw [if_pos h]

theorem foldr_expand_filter {G A : Type} (gm : GeoModel G) (resolution : Nat) (ig : Bool)
    (l : List (GeomRow G A)) :
    l.foldr (fun row acc => expandRow gm resolution ig row ++ acc) []
      = (l.filter (vrowOk gm)).foldr (fun row acc => expandRow gm resolution ig row ++ acc) [] := by
  induction l with
  | nil => rfl
  | cons a t ih =>
    cases hok : vrowOk gm a with
    | true => simp [List.filter_cons, hok, ih]
    | false =>
      simp [List.filter_cons, hok, expandRow_eq_nil_of_not_ok gm resolution ig a hok, ih]

/-- C6.  Features whose boundary is missing or topologically invalid are
skipped individually: the call returns exactly the expansion of the valid
features (removing the invalid rows from the input changes nothing), each
invalid row contributes no output rows, and the call as a whole always
returns a value (every per-feature failure of `h3.geo_to_cells` is caught
inside the loop and results in a skip, never a raised exception — the
embedded function is total). -/
theorem C6_invalid_geometries_skipped {G A : Type} (gm : GeoModel G)
    (gdf : List (GeomRow G A)) (resolution : Nat) (region : Option G)
    (include_geometry : Bool) :
    vector_to_h3 gm gdf resolution region include_geometry
      = vector_to_h3 gm (gdf.filter (vrowOk gm)) resolution region include_geometry
    ∧ ∀ row ∈ gdf, vrowOk gm row = false →
        expandRow gm resolution include_geometry row = [] := by
  constructor
  · simp only [vector_to_h3]
    rw [foldr_expand_filter]
    rcases gdf with _ | ⟨a, t⟩
    · rfl
    · rcases hf : (a :: t).filter (vrowOk gm) with _ | ⟨b, t'⟩ <;> simp [hf]
  · intro row _ h
    exact expandRow_eq_nil_of_not_ok gm resolution include_geometry row h

/-- Witness for `C6_invalid_geometries_skipped`: on a mixed input (invalid
geometry, valid geometry, missing geometry) the call equals the call on the
valid rows only, and the invalid first row expands to nothing. -/
theorem C6_invalid_geometries_skipped_witness :
    (vector_to_h3 gmNatV gdfMixed 9 none false
       = vector_to_h3 gmNatV (gdfMixed.filter (vrowOk gmNatV)) 9 none false)
    ∧ ({ geometry := some 0, attrs := 1 } : GeomRow Nat Nat) ∈ gdfMixed
    ∧ expandRow gmNatV 9 false ({ geometry := some 0, attrs := 1 } : GeomRow Nat Nat) = [] :=
  ⟨(C6_invalid_geometries_skipped gmNatV gdfMixed 9 none false).1,
   by decide,
   (C6_invalid_geometries_skipped gmNatV gdfMixed 9 none false).2 _ (by decide) (by decide)⟩

theorem charListLt_trans : ∀ {a b c : List Char},
    charListLt a b = true → charListLt b c = true → charListLt a c = true := by
  intro a
  induction a with
  | nil =>
    intro b c hab hbc
    cases b with
    | nil => cases hab
    | cons y ys =>
      cases c with
      | nil => cases hbc
      | cons z zs => rfl
  | cons x xs ih =>
    intro b c hab hbc
    cases b with
    | nil => cases hab
    | cons y ys =>
      cases c with
      | nil => cases hbc
      | cons z zs =>
        simp only [charListLt] at hab hbc ⊢
        by_cases hxy : x < y
        · by_cases hyz : y < z
          · rw [if_pos (lt_trans hxy hyz)]
          · rw [if_neg hyz] at hbc
            by_cases hzy : z < y
            · rw [if_pos hzy] at hbc; cases hbc
            · have hyzeq : y = z := le_antisymm (not_lt.mp hzy) (not_lt.mp hyz)
              subst hyzeq
              rw [if_pos hxy]
        · rw [if_neg hxy] at hab
          by_cases hyx : y < x
          · rw [if_pos hyx] at hab; cases hab
          · rw [if_neg hyx] at hab
            have hxyeq : x = y := le_antisymm (not_lt.mp hyx) (not_lt.mp hxy)
            subst hxyeq
            by_cases hxz : x < z
            · rw [if_pos hxz]
            · rw [if_neg hxz] at hbc ⊢
              by_cases hzx : z < x
              · rw [if_pos hzx] at hbc; cases hbc
              · rw [if_neg hzx] at hbc ⊢
                exact ih hab hbc

theorem charListLt_trichotomy : ∀ (a b : List Char),
    charListLt a b = true ∨ a = b ∨ charListLt b a = true := by
  intro a
  induction a with
  | nil =>
    intro b
    cases b with
    | nil => exact .inr (.inl rfl)
    | cons y ys => exact .inl rfl
  | cons x xs ih =>
    intro b
    cases b with
    | nil => exact .inr (.inr rfl)
    | cons y ys =>
      rcases lt_trichotomy x y with hxy | hxy | hxy
      · left
        simp only [charListLt]
        rw [if_pos hxy]
      · subst hxy
        rcases ih ys with h | h | h
        · left
          simp only [charListLt]
          rw [if_neg (lt_irrefl x), if_neg (lt_irrefl x)]
          exact h
        · subst h
          exact .inr (.inl rfl)
        · right; right
          simp only [charListLt]
          rw [if_neg (lt_irrefl x), if_neg (lt_irrefl x)]
          exact h
      · right; right
        simp only [charListLt]
        rw [if_pos hxy]

theorem strLt_trans {s t u : String} :
    strLt s t = true → strLt t u = true → strLt s u = true :=
  charListLt_trans

theorem strLt_trichotomy (s t : String) :
    strLt s t = true ∨ s = t ∨ strLt t s = true := by
  rcases charListLt_trichotomy s.toList t.toList with h | h | h
  · exact .inl h
  · refine .inr (.inl ?_)
    cases s with
    | mk d1 =>
      cases t with
      | mk d2 => exact congrArg String.mk h
  · exact .inr (.inr h)

theorem rowLe_trans {G : Type} : ∀ (a b c : OutRow G), rowLe a b → rowLe b c → rowLe a c := by
  intro a b c hab hbc
  rcases hab with h1 | ⟨e1, h1⟩
  · rcases hbc with h2 | ⟨e2, h2⟩
    · exact .inl (strLt_trans h1 h2)
    · exact .inl (e2 ▸ h1)
  · rcases hbc with h2 | ⟨e2, h2⟩
    · exact .inl (e1 ▸ h2)
    · exact .inr ⟨e1.trans e2, le_trans h1 h2⟩

theorem rowLe_total {G : Type} : ∀ (a b : OutRow G), rowLe a b ∨ rowLe b a := by
  intro a b
  rcases strLt_trichotomy a.date b.date with h | h | h
  · exact .inl (.inl h)
  · rcases Nat.le_total a.hex b.hex with hn | hn
    · exact .inl (.inr ⟨h, hn⟩)
    · exact .inr (.inr ⟨h.symm, hn⟩)
  · exact .inr (.inl h)

/-- C8.  Every successful aggregation call returns its rows sorted
ascending by the pair (date string, cell id): the pipeline ends with
`sort_values(by=['date', 'hex'])`, lexicographic on the date strings and —
for the fixed-width hex renderings of valid cells — equivalently numeric on
the cell ids.  (`List.Sorted rowLe` is pairwise `rowLe`; ties are impossible
because group keys are distinct, so stability is vacuous.) -/
theorem C8_output_sorted {G : Type} (gm : GeoModel G) (hexes : HexFrame) (region : Option G)
    (resolution : Nat) (time_agg : Option String) (strategy : String) (include_geometry : Bool)
    (out : List (OutRow G))
    (h : h3_aggregation gm hexes region resolution time_agg strategy include_geometry = .ok out) :
    List.Sorted rowLe out := by
  haveI : IsTrans (OutRow G) rowLe := ⟨rowLe_trans⟩
  haveI : IsTotal (OutRow G) rowLe := ⟨rowLe_total⟩
  unfold h3_aggregation at h
  by_cases hemp : hexes.rows.isEmpty = true
  · rw [if_pos hemp] at h
    cases h
    exact List.sorted_nil
  · rw [if_neg hemp] at h
    cases hu : h3_aggregation_unsorted gm hexes region resolution time_agg strategy
        include_geometry with
    | error e =>
      rw [hu] at h
      simp only [Except.map] at h
      cases h
    | ok y =>
      rw [hu] at h
      simp only [Except.map] at h
      cases h
      exact List.sorted_insertionSort rowLe y

/-- Witness for `C8_output_sorted`: the two-group output of the
`frameTwoDates` aggregation is sorted. -/
theorem C8_output_sorted_witness :
    h3_aggregation gmUnit frameTwoDates none 8 none ("mean") false = .ok outTwoDatesU
    ∧ List.Sorted rowLe outTwoDatesU :=
  ⟨by decide,
   C8_output_sorted gmUnit frameTwoDates none 8 none ("mean") false outTwoDatesU (by decide)⟩

theorem orderedInsert_eq_cons {α : Type} (r : α → α → Prop) [DecidableRel r] (a : α) :
    ∀ (l : List α), (∀ x ∈ l, r a x) → List.orderedInsert r a l = a :: l := by
  intro l h
  cases l with
  | nil => rfl
  | cons b t =>
    rw [List.orderedInsert, if_pos (h b (List.mem_cons_self b t))]

theorem filter_orderedInsert {α : Type} (r : α → α → Prop) [DecidableRel r]
    (htr : ∀ a b c, r a b → r b c → r a c) (p : α → Bool) (a : α) :
    ∀ (l : List α), List.Sorted r l →
      (List.orderedInsert r a l).filter p =
        if p a then List.orderedInsert r a (l.filter p) else l.filter p := by
  intro l
  induction l with
  | nil =>
    intro _
    by_cases hpa : p a = true <;>
      simp [List.orderedInsert, List.filter_cons, hpa]
  | cons b t ih =>
    intro hs
    rcases List.sorted_cons.mp hs with ⟨hb, hts⟩
    by_cases hab : r a b
    · by_cases hpa : p a = true
      · by_cases hpb : p b = true
        · simp [List.orderedInsert, hab, List.filter_cons, hpa, hpb]
        · have hoi : List.orderedInsert r a (t.filter p) = a :: t.filter p :=
            orderedInsert_eq_cons r a _
              (fun x hx => htr a b x hab (hb x (List.mem_of_mem_filter hx)))
          simp [List.orderedInsert, hab, List.filter_cons, hpa, hpb, hoi]
      · by_cases hpb : p b = true <;>
          simp [List.orderedInsert, hab, List.filter_cons, hpa, hpb]
    · by_cases hpa : p a = true
      · by_cases hpb : p b = true <;>
          simp [List.orderedInsert, hab, List.filter_cons, hpa, hpb, ih hts]
      · by_cases hpb : p b = true <;>
          simp [List.orderedInsert, hab, List.filter_cons, hpa, hpb, ih hts]

theorem filter_insertionSort {α : Type} (r : α → α → Prop) [DecidableRel r]
    (htr : ∀ a b c, r a b → r b c → r a c) (hto : ∀ a b, r a b ∨ r b a) (p : α → Bool) :
    ∀ (l : List α), (List.insertionSort r l).filter p = List.insertionSort r (l.filter p) := by
  haveI : IsTrans α r := ⟨htr⟩
  haveI : IsTotal α r := ⟨hto⟩
  intro l
  induction l with
  | nil => rfl
  | cons a t ih =>
    rw [List.insertionSort,
      filter_orderedInsert r htr p a _ (List.sorted_insertionSort r t)]
    by_cases hpa : p a = true
    · rw [if_pos hpa, ih, List.filter_cons, if_pos hpa, List.insertionSort]
    · rw [if_neg hpa, ih, List.filter_cons, if_neg hpa]

theorem exMapM_filter {α β ε : Type} {f : α → Except ε β} {p : α → Bool} {q : β → Bool}
    (hpq : ∀ a b, f a = .ok b → q b = p a) :
    ∀ {l : List α} {l' : List β}, exMapM f l = .ok l' →
      exMapM f (l.filter p) = .ok (l'.filter q) := by
  intro l
  induction l with
  | nil => intro l' h; cases h; rfl
  | cons a t ih =>
    intro l' h
    unfold exMapM at h
    cases hfa : f a with
    | error e => rw [hfa] at h; cases h
    | ok b =>
      rw [hfa] at h
      cases ht : exMapM f t with
      | error e => rw [ht] at h; cases h
      | ok bs =>
        rw [ht] at h
        cases h
        rw [List.filter_cons]
        by_cases hpa : p a = true
        · rw [if_pos hpa]
          have hih := ih ht
          unfold exMapM
          simp only [hfa, hih]
          rw [List.filter_cons, if_pos (by rw [hpq a b hfa]; exact hpa)]
        · rw [if_neg hpa, ih ht, List.filter_cons,
            if_neg (by rw [hpq a b hfa]; exact hpa)]

theorem restoreRow_geometry {G : Type} {a b : OutRow G} (h : restoreRow a = .ok b) :
    b.geometry = a.geometry := by
  unfold restoreRow at h
  cases hp : parseYMD a.date with
  | error e => rw [hp] at h; cases h
  | ok dt => rw [hp] at h; cases h; rfl

theorem restoreRow_count {G : Type} {a b : OutRow G} (h : restoreRow a = .ok b) :
    b.count = a.count := by
  unfold restoreRow at h
  cases hp : parseYMD a.date with
  | error e => rw [hp] at h; cases h
  | ok dt => rw [hp] at h; cases h; rfl

theorem applyGeomAndRegion_some_true {G : Type} (gm : GeoModel G) (reg : G)
    (l : List (OutRow G)) :
    applyGeomAndRegion gm (some reg) true l
      = (applyGeomAndRegion gm none true l).filter (regionPred gm reg) := rfl

theorem applyGeomAndRegion_no_geometry {G : Type} (gm : GeoModel G) (region : Option G)
    (l : List (OutRow G)) :
    applyGeomAndRegion gm region false l = l := by
  cases region <;> rfl

theorem restoreDates_filter {G : Type} (gm : GeoModel G) (reg : G) (time_agg : Option String)
    {rows y : List (OutRow G)} (h : restoreDates time_agg rows = .ok y) :
    restoreDates time_agg (rows.filter (regionPred gm reg))
      = .ok (y.filter (regionPred gm reg)) := by
  cases time_agg with
  | none =>
    unfold restoreDates at h ⊢
    cases h
    rfl
  | some t =>
    unfold restoreDates at h ⊢
    exact exMapM_filter
      (fun a b hab => by unfold regionPred; rw [restoreRow_geometry hab]) h

theorem unsorted_region_ignored_without_geometry {G : Type} (gm : GeoModel G)
    (hexes : HexFrame) (region : Option G) (resolution : Nat) (time_agg : Option String)
    (strategy : String) :
    h3_aggregation_unsorted gm hexes region resolution time_agg strategy false
      = h3_aggregation_unsorted gm hexes none resolution time_agg strategy false := by
  unfold h3_aggregation_unsorted
  simp only [applyGeomAndRegion_no_geometry]

theorem agg_region_ignored_without_geometry {G : Type} (gm : GeoModel G) (hexes : HexFrame)
    (region : Option G) (resolution : Nat) (time_agg : Option String) (strategy : String) :
    h3_aggregation gm hexes region resolution time_agg strategy false
      = h3_aggregation gm hexes none resolution time_agg strategy false := by
  unfold h3_aggregation
  rw [unsorted_region_ignored_without_geometry]

theorem unsorted_region_filter {G : Type} (gm : GeoModel G) (hexes : HexFrame) (reg : G)
    (resolution : Nat) (time_agg : Option String) (strategy : String)
    {y : List (OutRow G)}
    (h : h3_aggregation_unsorted gm hexes none resolution time_agg strategy true = .ok y) :
    h3_aggregation_unsorted gm hexes (some reg) resolution time_agg strategy true
      = .ok (y.filter (regionPred gm reg)) := by
  unfold h3_aggregation_unsorted at h ⊢
  by_cases hc1 : hexes.hasHexCol = false
  · rw [if_pos hc1] at h; cases h
  · rw [if_neg hc1] at h ⊢
    by_cases hc2 : time_agg.isSome = true ∧ hexes.hasDateCol = false
    · rw [if_pos hc2] at h; cases h
    · rw [if_neg hc2] at h ⊢
      cases hmp : exMapM (fun r => Except.map (fun p => (r, p)) (cell_to_parent r.hex resolution))
          hexes.rows with
      | error e =>
        simp only [hmp] at h
        exact Except.noConfusion h
      | ok wp =>
        simp only [hmp] at h ⊢
        cases hck : computeKeys hexes.hasDateCol time_agg wp with
        | error e =>
          simp only [hck] at h
          exact Except.noConfusion h
        | ok keyed =>
          simp only [hck] at h ⊢
          cases hcs : checkStrategy hexes.hasValueCol strategy with
          | error e =>
            simp only [hcs] at h
            exact Except.noConfusion h
          | ok u =>
            simp only [hcs] at h ⊢
            rw [applyGeomAndRegion_some_true]
            exact restoreDates_filter gm reg time_agg h

/-- C7.  For both `vector_to_h3` and `h3_aggregation`, a region filter is
applied exactly when `include_geometry=true`: with geometry, the output is
the unfiltered output restricted to the rows whose reconstructed boundary
intersects the region; without geometry, the region argument is ignored and
the output is the unfiltered output. -/
theorem C7_region_filter_only_with_geometry {G A : Type} (gm : GeoModel G)
    (gdf : List (GeomRow G A)) (vres : Nat) (hexes : HexFrame) (reg : G)
    (resolution : Nat) (time_agg : Option String) (strategy : String)
    (outT outF : List (OutRow G))
    (hT : h3_aggregation gm hexes none resolution time_agg strategy true = .ok outT)
    (hF : h3_aggregation gm hexes none resolution time_agg strategy false = .ok outF) :
    vector_to_h3 gm gdf vres (some reg) true
      = (vector_to_h3 gm gdf vres none true).filter
          (fun r => match r.geometry with | some g => gm.intersects g reg | none => false)
    ∧ vector_to_h3 gm gdf vres (some reg) false = vector_to_h3 gm gdf vres none false
    ∧ h3_aggregation gm hexes (some reg) resolution time_agg strategy true
        = .ok (outT.filter (regionPred gm reg))
    ∧ h3_aggregation gm hexes (some reg) resolution time_agg strategy false = .ok outF := by
  refine ⟨?_, rfl, ?_, (agg_region_ignored_without_geometry gm hexes (some reg) resolution
    time_agg strategy).trans hF⟩
  · unfold vector_to_h3
    by_cases hg : gdf.isEmpty = true
    · rw [if_pos hg, if_pos hg]
      try rfl
    · rw [if_neg hg, if_neg hg]
      by_cases hr : (gdf.foldr (fun row acc => expandRow gm vres true row ++ acc)
          ([] : List (VecOutRow G A))).isEmpty = true
      · rw [if_pos hr, if_pos hr]
        try rfl
      · rw [if_neg hr, if_neg hr]
        try rfl
  · unfold h3_aggregation at hT ⊢
    by_cases hemp : hexes.rows.isEmpty = true
    · rw [if_pos hemp] at hT ⊢
      cases hT
      rfl
    · rw [if_neg hemp] at hT ⊢
      cases hu : h3_aggregation_unsorted gm hexes none resolution time_agg strategy true with
      | error e =>
        rw [hu] at hT
        simp only [Except.map] at hT
        cases hT
      | ok y =>
        rw [hu] at hT
        simp only [Except.map] at hT
        cases hT
        rw [unsorted_region_filter gm hexes reg resolution time_agg strategy hu]
        simp only [Except.map]
        rw [filter_insertionSort rowLe rowLe_trans rowLe_total (regionPred gm reg) y]

/-- Witness for `C7_region_filter_only_with_geometry` at a concrete model,
frame and region. -/
theorem C7_region_filter_only_with_geometry_witness :
    h3_aggregation gmNat frameTwoDates none 8 none ("mean") true = .ok outTwoDatesGeo
    ∧ (vector_to_h3 gmNat gdfOne 9 (some 5) true
         = (vector_to_h3 gmNat gdfOne 9 none true).filter
             (fun r => match r.geometry with | some g => gmNat.intersects g 5 | none => false)
       ∧ vector_to_h3 gmNat gdfOne 9 (some 5) false = vector_to_h3 gmNat gdfOne 9 none false
       ∧ h3_aggregation gmNat frameTwoDates (some 5) 8 none ("mean") true
           = .ok (outTwoDatesGeo.filter (regionPred gmNat 5))
       ∧ h3_aggregation gmNat frameTwoDates (some 5) 8 none ("mean") false = .ok outTwoDatesN) :=
  ⟨by decide,
   C7_region_filter_only_with_geometry gmNat gdfOne 9 frameTwoDates 5 8 none ("mean")
     outTwoDatesGeo outTwoDatesN (by decide) (by decide)⟩

theorem exMapM_forall2 {α β ε : Type} {f : α → Except ε β} :
    ∀ {l : List α} {l' : List β}, exMapM f l = .ok l' →
      List.Forall₂ (fun a b => f a = .ok b) l l' := by
  intro l
  induction l with
  | nil => intro l' h; cases h; exact .nil
  | cons a t ih =>
    intro l' h
    unfold exMapM at h
    cases hfa : f a with
    | error e => rw [hfa] at h; cases h
    | ok b =>
      rw [hfa] at h
      cases ht : exMapM f t with
      | error e => rw [ht] at h; cases h
      | ok bs => rw [ht] at h; cases h; exact .cons hfa (ih ht)

theorem exMapM_error_ex {α β ε : Type} {f : α → Except ε β} :
    ∀ {l : List α} {e : ε}, exMapM f l = .error e → ∃ a ∈ l, f a = .error e := by
  intro l
  induction l with
  | nil => intro e h; cases h
  | cons a t ih =>
    intro e h
    unfold exMapM at h
    cases hfa : f a with
    | error e' =>
      rw [hfa] at h; cases h
      exact ⟨a, List.mem_cons_self a t, hfa⟩
    | ok b =>
      rw [hfa] at h
      cases ht : exMapM f t with
      | error e' =>
        rw [ht] at h; cases h
        obtain ⟨x, hx, hfx⟩ := ih ht
        exact ⟨x, List.mem_cons_of_mem a hx, hfx⟩
      | ok bs => rw [ht] at h; cases h

theorem exMapM_error_of_forall {α β ε : Type} {f : α → Except ε β} {e₀ : ε} :
    ∀ {l : List α}, (∃ a ∈ l, ∃ e, f a = .error e) →
      (∀ a ∈ l, ∀ e, f a = .error e → e = e₀) → exMapM f l = .error e₀ := by
  intro l
  induction l with
  | nil => rintro ⟨a, ha, _⟩ _; cases ha
  | cons a t ih =>
    rintro ⟨x, hx, e, hfx⟩ hall
    unfold exMapM
    cases hfa : f a with
    | error e' =>
      rw [hall a (List.mem_cons_self a t) e' hfa]
    | ok b =>
      have hxt : x ∈ t := by
        rcases List.mem_cons.mp hx with rfl | h
        · rw [hfa] at hfx; cases hfx
        · exact h
      have ht := ih ⟨x, hxt, e, hfx⟩ (fun a' ha' => hall a' (List.mem_cons_of_mem a ha'))
      rw [ht]

theorem forall2_map_eq {α β γ : Type} {R : α → β → Prop} {g : β → γ} {gh : α → γ}
    (hgh : ∀ a b, R a b → g b = gh a) :
    ∀ {l : List α} {l' : List β}, List.Forall₂ R l l' → l'.map g = l.map gh := by
  intro l l' h
  induction h with
  | nil => rfl
  | cons hr _ ih => simp [ih, hgh _ _ hr]

theorem cell_to_parent_error_classes {h r : Nat} {e : AggError} :
    cell_to_parent h r = .error e → e = .h3ResDomain ∨ e = .h3ResMismatch := by
  unfold cell_to_parent
  split
  · intro he; cases he; exact .inl rfl
  · split
    · intro he; cases he; exact .inr rfl
    · split
      · intro he; cases he
      · intro he; cases he

theorem cell_to_parent_error_of_lt {h r : Nat} (hlt : h3GetResolution h < r) :
    ∃ e, cell_to_parent h r = .error e := by
  unfold cell_to_parent
  rcases Nat.lt_or_ge 15 r with h15 | h15
  · rw [if_pos h15]; exact ⟨_, rfl⟩
  · rw [if_neg (by omega), if_pos hlt]; exact ⟨_, rfl⟩

theorem cell_to_parent_mismatch_of_le {h r : Nat} (hr : r ≤ 15) (hlt : h3GetResolution h < r) :
    cell_to_parent h r = .error .h3ResMismatch := by
  unfold cell_to_parent
  rw [if_neg (by omega), if_pos hlt]

theorem parseYMD_error_valueError {s : String} {e : AggError} :
    parseYMD s = .error e → e = .valueError := by
  unfold parseYMD mkPDate
  split <;> first
    | (split
       · intro he; cases he
       · intro he; cases he; rfl)
    | (intro he; cases he; rfl)

theorem cell_to_parent_not_domain_of_le {h r : Nat} (hr : r ≤ 15) :
    cell_to_parent h r ≠ .error .h3ResDomain := by
  unfold cell_to_parent
  rw [if_neg (by omega)]
  split
  · intro he; cases he
  · split
    · intro he; cases he
    · intro he; cases he

theorem mapParent_error_iff (a : HexRow) (resolution : Nat) (e : AggError) :
    (Except.map (fun p => (a, p)) (cell_to_parent a.hex resolution)
        = (.error e : Except AggError (HexRow × Nat)))
      ↔ cell_to_parent a.hex resolution = .error e := by
  cases h : cell_to_parent a.hex resolution <;> simp [Except.map, h]

/-- C1, amended.  The aggregation call fails with an h3 resolution error —
`H3ResMismatchError` (or `H3ResDomainError` when the target resolution also
exceeds 15) — whenever the target resolution is **strictly finer**
(numerically greater) than some input feature's resolution, producing no
output; a target resolution *equal* to every input's resolution is accepted
(see the counterexample). -/
theorem C1_amended_strictly_finer_fails {G : Type} (gm : GeoModel G) (hexes : HexFrame)
    (region : Option G) (resolution : Nat) (time_agg : Option String) (strategy : String)
    (include_geometry : Bool)
    (hhex : hexes.hasHexCol = true)
    (hdc : time_agg.isSome = true → hexes.hasDateCol = true)
    (hfiner : ∃ r ∈ hexes.rows, h3GetResolution r.hex < resolution) :
    h3_aggregation gm hexes region resolution time_agg strategy include_geometry
      = .error .h3ResMismatch
    ∨ h3_aggregation gm hexes region resolution time_agg strategy include_geometry
      = .error .h3ResDomain := by
  obtain ⟨r0, hr0, hres⟩ := hfiner
  have hne : hexes.rows.isEmpty = false := by
    cases hrows : hexes.rows with
    | nil => rw [hrows] at hr0; cases hr0
    | cons a t => rfl
  have hcond1 : ¬(hexes.hasHexCol = false) := by rw [hhex]; intro hc; cases hc
  have hcond2 : ¬(time_agg.isSome = true ∧ hexes.hasDateCol = false) := by
    rintro ⟨h1, h2⟩
    rw [hdc h1] at h2
    cases h2
  rcases Nat.lt_or_ge 15 resolution with h15 | h15
  · right
    have hmap : exMapM (fun r => Except.map (fun p => (r, p)) (cell_to_parent r.hex resolution))
        hexes.rows = .error .h3ResDomain := by
      apply exMapM_error_of_forall
      · refine ⟨r0, hr0, .h3ResDomain, ?_⟩
        rw [mapParent_error_iff]
        unfold cell_to_parent
        rw [if_pos h15]
      · intro a _ e he
        rw [mapParent_error_iff] at he
        unfold cell_to_parent at he
        rw [if_pos h15] at he
        cases he; rfl
    have hun : h3_aggregation_unsorted gm hexes region resolution time_agg strategy
        include_geometry = .error .h3ResDomain := by
      unfold h3_aggregation_unsorted
      rw [if_neg hcond1, if_neg hcond2, hmap]
    unfold h3_aggregation
    rw [if_neg (by rw [hne]; exact Bool.false_ne_true), hun]
    rfl
  · left
    have hmap : exMapM (fun r => Except.map (fun p => (r, p)) (cell_to_parent r.hex resolution))
        hexes.rows = .error .h3ResMismatch := by
      apply exMapM_error_of_forall
      · exact ⟨r0, hr0, .h3ResMismatch, (mapParent_error_iff _ _ _).mpr
          (cell_to_parent_mismatch_of_le h15 hres)⟩
      · intro a _ e he
        rw [mapParent_error_iff] at he
        rcases cell_to_parent_error_classes he with rfl | rfl
        · exact absurd he (cell_to_parent_not_domain_of_le h15)
        · rfl
    have hun : h3_aggregation_unsorted gm hexes region resolution time_agg strategy
        include_geometry = .error .h3ResMismatch := by
      unfold h3_aggregation_unsorted
      rw [if_neg hcond1, if_neg hcond2, hmap]
    unfold h3_aggregation
    rw [if_neg (by rw [hne]; exact Bool.false_ne_true), hun]
    rfl

/-- Witness for `C1_amended_strictly_finer_fails`: aggregating a
resolution-8 feature to target resolution 10 fails with a resolution
error. -/
theorem C1_amended_strictly_finer_fails_witness :
    frameRes8.hasHexCol = true
    ∧ (h3_aggregation gmUnit frameRes8 none 10 (some ("daily")) "mean" false
         = .error .h3ResMismatch
       ∨ h3_aggregation gmUnit frameRes8 none 10 (some ("daily")) "mean" false
         = .error .h3ResDomain) :=
  ⟨by decide, C1_amended_strictly_finer_fails gmUnit frameRes8 none 10 (some ("daily")) "mean" false
    (by decide) (fun _ => by decide) ⟨frameRes8.rows.head (by decide), by decide, by decide⟩⟩

/-- C10.  For a non-empty input with `hex` and `date` columns, a `time_agg`
other than daily/monthly/yearly/None makes the call raise a `ValueError`
before producing any output: either the explicit `raise ValueError` of the
granularity dispatch (line 72), or an earlier error of the parent-cell or
date-parsing steps, each of which is a `ValueError` subclass (h3-py v4
resolution errors derive from `H3ValueError`, pandas date-parse errors from
`ValueError`). -/
theorem C10_invalid_time_agg_value_error {G : Type} (gm : GeoModel G) (hexes : HexFrame)
    (region : Option G) (resolution : Nat) (t : String) (strategy : String)
    (include_geometry : Bool)
    (hne : hexes.rows ≠ [])
    (hhex : hexes.hasHexCol = true)
    (hdate : hexes.hasDateCol = true)
    (ht : t ≠ "daily" ∧ t ≠ "monthly" ∧ t ≠ "yearly") :
    ∃ e, h3_aggregation gm hexes region resolution (some t) strategy include_geometry
        = .error e ∧ e.isValueErrorClass = true := by
  have hnemp : hexes.rows.isEmpty = false := by
    cases hrows : hexes.rows with
    | nil => exact absurd hrows hne
    | cons a l => rfl
  have hcond1 : ¬(hexes.hasHexCol = false) := by rw [hhex]; intro hc; cases hc
  have hcond2 : ¬((some t).isSome = true ∧ hexes.hasDateCol = false) := by
    rintro ⟨_, h2⟩
    rw [hdate] at h2
    cases h2
  suffices hsuf : ∃ e, h3_aggregation_unsorted gm hexes region resolution (some t) strategy
      include_geometry = .error e ∧ e.isValueErrorClass = true by
    obtain ⟨e, he, hve⟩ := hsuf
    refine ⟨e, ?_, hve⟩
    unfold h3_aggregation
    rw [if_neg (by rw [hnemp]; exact Bool.false_ne_true), he]
    rfl
  cases hmp : exMapM (fun r => Except.map (fun p => (r, p)) (cell_to_parent r.hex resolution))
      hexes.rows with
  | error e =>
    obtain ⟨a, _, hfa⟩ := exMapM_error_ex hmp
    rw [mapParent_error_iff] at hfa
    refine ⟨e, ?_, ?_⟩
    · unfold h3_aggregation_unsorted
      rw [if_neg hcond1, if_neg hcond2, hmp]
    · rcases cell_to_parent_error_classes hfa with rfl | rfl <;> rfl
  | ok wp =>
    cases hps : exMapM (fun rp : HexRow × Nat =>
        match rp.1.date with
        | none => .ok ((none : Option PDate), rp)
        | some s => Except.map (fun dt => (some dt, rp)) (parseYMD s)) wp with
    | error e =>
      have hck : computeKeys hexes.hasDateCol (some t) wp = .error e := by
        unfold computeKeys
        simp only [hps]
      obtain ⟨a, _, hfa⟩ := exMapM_error_ex hps
      refine ⟨e, ?_, ?_⟩
      · unfold h3_aggregation_unsorted
        rw [if_neg hcond1, if_neg hcond2]
        simp only [hmp, hck]
      · cases hd : a.1.date with
        | none => simp only [hd] at hfa; cases hfa
        | some s =>
          simp only [hd] at hfa
          cases hp : parseYMD s with
          | error e' =>
            rw [hp] at hfa
            simp only [Except.map] at hfa
            cases hfa
            rw [parseYMD_error_valueError hp]
            rfl
          | ok dt => rw [hp] at hfa; simp only [Except.map] at hfa; cases hfa
    | ok parsed =>
      have hck : computeKeys hexes.hasDateCol (some t) wp = .error .valueError := by
        unfold computeKeys
        simp only [hps]
        rw [if_neg ht.1, if_neg ht.2.1, if_neg ht.2.2]
      refine ⟨.valueError, ?_, rfl⟩
      unfold h3_aggregation_unsorted
      rw [if_neg hcond1, if_neg hcond2]
      simp only [hmp, hck]

/-- Witness for `C10_invalid_time_agg_value_error`: `time_agg='weekly'` on a
one-row frame with both columns raises a `ValueError`. -/
theorem C10_invalid_time_agg_value_error_witness :
    frameRes8.rows ≠ []
    ∧ ∃ e, h3_aggregation gmUnit frameRes8 none 8 (some ("weekly")) "mean" false
        = .error e ∧ e.isValueErrorClass = true :=
  ⟨by decide, C10_invalid_time_agg_value_error gmUnit frameRes8 none 8 ("weekly") ("mean") false
    (by decide) (by decide) (by decide) ⟨by decide, by decide, by decide⟩⟩

theorem exMapM_ok_mem {α β ε : Type} {f : α → Except ε β} :
    ∀ {l : List α} {l' : List β}, exMapM f l = .ok l' → ∀ b ∈ l', ∃ a ∈ l, f a = .ok b := by
  intro l
  induction l with
  | nil => intro l' h b hb; cases h; cases hb
  | cons a t ih =>
    intro l' h b hb
    unfold exMapM at h
    cases hfa : f a with
    | error e => rw [hfa] at h; cases h
    | ok b0 =>
      rw [hfa] at h
      cases ht : exMapM f t with
      | error e => rw [ht] at h; cases h
      | ok bs =>
        rw [ht] at h
        cases h
        rcases List.mem_cons.mp hb with rfl | hb'
        · exact ⟨a, List.mem_cons_self a t, hfa⟩
        · obtain ⟨x, hx, hfx⟩ := ih ht b hb'
          exact ⟨x, List.mem_cons_of_mem a hx, hfx⟩

theorem filter_key_length {K R : Type} [DecidableEq K] (k : K) :
    ∀ (l : List (Option K × R)),
      (l.filter (fun p => decide (p.1 = some k))).length = (l.filterMap Prod.fst).count k := by
  intro l
  induction l with
  | nil => rfl
  | cons a t ih =>
    rcases a with ⟨o, rr⟩
    cases o with
    | none => simpa using ih
    | some v =>
      by_cases hv : v = k
      · subst hv
        simp [List.filter_cons, List.filterMap_cons, List.count_cons, ih]
      · simp [List.filter_cons, List.filterMap_cons, List.count_cons, hv, ih]

theorem filterMap_fst_length {K R : Type} :
    ∀ (l : List (Option K × R)),
      (l.filterMap Prod.fst).length = (l.filter (fun p => p.1.isSome)).length := by
  intro l
  induction l with
  | nil => rfl
  | cons a t ih =>
    rcases a with ⟨o, rr⟩
    cases o with
    | none => simpa using ih
    | some v => simpa using ih

theorem pdGroupBy_sum_lengths {K R : Type} [DecidableEq K] (l : List (Option K × R)) :
    ((pdGroupBy l).map (fun kg => kg.2.length)).sum
      = (l.filter (fun p => p.1.isSome)).length := by
  unfold pdGroupBy
  rw [List.map_map]
  have hcongr : ((l.filterMap Prod.fst).dedup.map
        ((fun kg : K × List R => kg.2.length) ∘
          (fun k => (k, (l.filter (fun p => decide (p.1 = some k))).map Prod.snd))))
      = (l.filterMap Prod.fst).dedup.map (fun k => (l.filterMap Prod.fst).count k) := by
    apply List.map_congr_left
    intro k _
    simp only [Function.comp]
    rw [List.length_map]
    exact filter_key_length k l
  rw [hcongr, List.sum_map_count_dedup_eq_length, filterMap_fst_length]

theorem restoreDates_counts {G : Type} {time_agg : Option String} {rows y : List (OutRow G)}
    (h : restoreDates time_agg rows = .ok y) :
    y.map OutRow.count = rows.map OutRow.count := by
  cases time_agg with
  | none =>
    unfold restoreDates at h
    cases h
    rfl
  | some t =>
    unfold restoreDates at h
    exact forall2_map_eq (fun a b hab => restoreRow_count hab) (exMapM_forall2 h)

theorem applyGeomAndRegion_none_counts {G : Type} (gm : GeoModel G) (ig : Bool)
    (l : List (OutRow G)) :
    (applyGeomAndRegion gm none ig l).map OutRow.count = l.map OutRow.count := by
  cases ig with
  | false => rfl
  | true =>
    show ((l.map (addGeom gm)).map OutRow.count) = l.map OutRow.count
    rw [List.map_map]
    exact List.map_congr_left (fun x _ => rfl)

theorem aggRows_counts {G : Type} (hasValueCol : Bool) (strategy : String)
    (groups : List ((Nat × String) × List HexRow)) :
    ((groups.map (fun kg => (mkAggRow hasValueCol strategy kg : OutRow G))).map OutRow.count)
      = groups.map (fun kg => kg.2.length) := by
  rw [List.map_map]
  exact List.map_congr_left (fun x _ => rfl)

theorem computeKeys_ok_lengths {hasDateCol : Bool} {time_agg : Option String}
    {wp : List (HexRow × Nat)} {keyed : List (Option (Nat × String) × HexRow)}
    (hdates : ∀ rp ∈ wp, rp.1.date.isSome = true)
    (h : computeKeys hasDateCol time_agg wp = .ok keyed) :
    keyed.length = wp.length ∧ ∀ x ∈ keyed, x.1.isSome = true := by
  unfold computeKeys at h
  cases time_agg with
  | none =>
    by_cases hdc : hasDateCol = true
    · rw [if_pos hdc] at h
      cases h
      refine ⟨List.length_map _ _, ?_⟩
      intro x hx
      obtain ⟨rp, hrp, rfl⟩ := List.mem_map.mp hx
      have hds := hdates rp hrp
      cases hd : rp.1.date with
      | none => rw [hd] at hds; cases hds
      | some s => simp [hd]
    · rw [if_neg hdc] at h
      exact Except.noConfusion h
  | some tg =>
    cases hps : exMapM (fun rp : HexRow × Nat =>
        match rp.1.date with
        | none => .ok ((none : Option PDate), rp)
        | some s => Except.map (fun dt => (some dt, rp)) (parseYMD s)) wp with
    | error e =>
      rw [hps] at h
      exact Except.noConfusion h
    | ok parsed =>
      simp only [hps] at h
      cases hfmt : (if tg = "daily" then .ok fmtYMD
          else if tg = "monthly" then .ok fmtYM
          else if tg = "yearly" then .ok fmtY
          else .error (.valueError) : Except AggError (PDate → String)) with
      | error e =>
        rw [hfmt] at h
        exact Except.noConfusion h
      | ok fmt =>
        simp only [hfmt] at h
        cases h
        have hlen : wp.length = parsed.length := (exMapM_forall2 hps).length_eq
        refine ⟨by rw [List.length_map, hlen], ?_⟩
        intro x hx
        obtain ⟨pr, hpr, rfl⟩ := List.mem_map.mp hx
        obtain ⟨rp, hrp, hfrp⟩ := exMapM_ok_mem hps pr hpr
        have hds := hdates rp hrp
        cases hd : rp.1.date with
        | none => rw [hd] at hds; cases hds
        | some s =>
          simp only [hd] at hfrp
          cases hp : parseYMD s with
          | error e =>
            rw [hp] at hfrp
            simp only [Except.map] at hfrp
            exact Except.noConfusion hfrp
          | ok dt =>
            rw [hp] at hfrp
            simp only [Except.map] at hfrp
            cases hfrp
            rfl

/-- C2, amended.  When no region filter is applied and **every input row has
a non-null date**, the output counts sum to the number of input rows: every
record is folded into exactly one group.  (Rows with a null date are dropped
by the group-by — see the counterexample.) -/
theorem C2_amended_count_conservation {G : Type} (gm : GeoModel G) (hexes : HexFrame)
    (resolution : Nat) (time_agg : Option String) (strategy : String) (include_geometry : Bool)
    (out : List (OutRow G))
    (hdates : ∀ r ∈ hexes.rows, r.date.isSome = true)
    (h : h3_aggregation gm hexes none resolution time_agg strategy include_geometry = .ok out) :
    (out.map OutRow.count).sum = hexes.rows.length := by
  unfold h3_aggregation at h
  by_cases hemp : hexes.rows.isEmpty = true
  · rw [if_pos hemp] at h
    cases h
    cases hrows : hexes.rows with
    | nil => rfl
    | cons a t => rw [hrows] at hemp; cases hemp
  · rw [if_neg hemp] at h
    cases hu : h3_aggregation_unsorted gm hexes none resolution time_agg strategy
        include_geometry with
    | error e =>
      rw [hu] at h
      simp only [Except.map] at h
      cases h
    | ok y =>
      rw [hu] at h
      simp only [Except.map] at h
      cases h
      rw [((List.perm_insertionSort rowLe y).map OutRow.count).sum_eq]
      unfold h3_aggregation_unsorted at hu
      by_cases hc1 : hexes.hasHexCol = false
      · rw [if_pos hc1] at hu; cases hu
      rw [if_neg hc1] at hu
      by_cases hc2 : time_agg.isSome = true ∧ hexes.hasDateCol = false
      · rw [if_pos hc2] at hu; cases hu
      rw [if_neg hc2] at hu
      cases hmp : exMapM (fun r => Except.map (fun p => (r, p)) (cell_to_parent r.hex resolution))
          hexes.rows with
      | error e =>
        simp only [hmp] at hu
        exact Except.noConfusion hu
      | ok wp =>
        simp only [hmp] at hu
        have hwpd : ∀ rp ∈ wp, rp.1.date.isSome = true := by
          intro rp hrp
          obtain ⟨r, hr, hfr⟩ := exMapM_ok_mem hmp rp hrp
          cases hcp : cell_to_parent r.hex resolution with
          | error e =>
            rw [hcp] at hfr
            simp only [Except.map] at hfr
            exact Except.noConfusion hfr
          | ok p =>
            rw [hcp] at hfr
            simp only [Except.map] at hfr
            cases hfr
            exact hdates r hr
        have hwplen : hexes.rows.length = wp.length := (exMapM_forall2 hmp).length_eq
        cases hck : computeKeys hexes.hasDateCol time_agg wp with
        | error e =>
          simp only [hck] at hu
          exact Except.noConfusion hu
        | ok keyed =>
          simp only [hck] at hu
          obtain ⟨hklen, hksome⟩ := computeKeys_ok_lengths hwpd hck
          cases hcs : checkStrategy hexes.hasValueCol strategy with
          | error e =>
            simp only [hcs] at hu
            exact Except.noConfusion hu
          | ok u =>
            simp only [hcs] at hu
            rw [restoreDates_counts hu, applyGeomAndRegion_none_counts,
              aggRows_counts, pdGroupBy_sum_lengths,
              List.filter_eq_self.mpr hksome, hklen, hwplen]

/-- Witness for `C2_amended_count_conservation`: two one-member groups, sum
of counts 2 = input length. -/
theorem C2_amended_count_conservation_witness :
    (∀ r ∈ frameTwoDates.rows, r.date.isSome = true)
    ∧ (outTwoDatesU.map OutRow.count).sum = frameTwoDates.rows.length :=
  ⟨by decide,
   C2_amended_count_conservation gmUnit frameTwoDates 8 none ("mean") false outTwoDatesU
     (by decide) (by decide)⟩

set_option maxHeartbeats 1600000 in
/-- C9.  Neither function mutates its input frame: in the store-level
renderings, the cell the caller's reference points to is unchanged after the
call — the line-46 `hexes.copy()` puts all in-place column assignments,
renames and the in-place sort on freshly allocated cells, and
`vector_to_h3` only reads its input.  (Each call works on its own fresh
cells, so concurrent calls sharing read-only inputs cannot interfere.) -/
theorem C9_inputs_not_mutated {G A : Type} (gm : GeoModel G) (heap : List (PdObj G))
    (heapV : List (PdObjV G A)) (hexesRef gdfRef : Nat) (region : Option G)
    (resolution vres : Nat) (time_agg : Option String) (strategy : String)
    (include_geometry : Bool) :
    (h3_aggregation_mut gm heap hexesRef region resolution time_agg strategy
        include_geometry).1[hexesRef]? = heap[hexesRef]?
    ∧ (vector_to_h3_mut gm heapV gdfRef vres region include_geometry).1[gdfRef]?
        = heapV[gdfRef]? := by
  refine ⟨?_, ?_⟩
  · unfold h3_aggregation_mut
    split
    · next hexes heq =>
        have hlt : hexesRef < heap.length := by
          by_contra hge
          rw [List.getElem?_eq_none (Nat.le_of_not_lt hge)] at heq
          cases heq
        have e1 : ∀ (H : List (PdObj G)) (x : PdObj G), hexesRef < H.length →
            (H ++ [x])[hexesRef]? = H[hexesRef]? := fun H x h => List.getElem?_append_left h
        have eset : ∀ (H : List (PdObj G)) (j : Nat) (v : PdObj G), hexesRef < j →
            (H.set j v)[hexesRef]? = H[hexesRef]? :=
          fun H j v hj => List.getElem?_set_ne (by omega)
        (repeat' split) <;>
          (try dsimp only []) <;> (repeat' split) <;>
          (repeat (first
            | rfl
            | contradiction
            | rw [eset _ _ _ (by first
                | omega
                | (simp only [List.length_set, List.length_append, List.length_cons,
                    List.length_nil]; omega))]
            | rw [e1 _ _ (by first
                | omega
                | (simp only [List.length_set, List.length_append, List.length_cons,
                    List.length_nil]; omega))]))
    · rfl
  · unfold vector_to_h3_mut
    split
    · next gdf heq =>
        have hlt : gdfRef < heapV.length := by
          by_contra hge
          rw [List.getElem?_eq_none (Nat.le_of_not_lt hge)] at heq
          cases heq
        (repeat' split) <;>
          (try dsimp only []) <;>
          (repeat (first
            | rfl
            | contradiction
            | rw [List.getElem?_append_left (by first
                | omega
                | (simp only [List.length_set, List.length_append, List.length_cons,
                    List.length_nil]; omega))]))
    · rfl

/-- C1, counterexample.  Calling aggregate with `targetResolution` **equal**
to the input feature's resolution does not fail: `h3.cell_to_parent` returns
the cell itself at equal resolutions, and the call succeeds with output.
This falsifies the claim that a target resolution "equal to or finer" than
an input resolution fails with `InvalidResolution` and produces no output. -/
theorem C1_counterexample_equal_resolution_succeeds :
    h3_aggregation gmUnit frameRes8 none 8 (some ("daily")) "mean" false =
      .ok [{ hex := cell8, date := "2020-01-10", value := none, count := 1, geometry := none }] := by
  decide

set_option maxRecDepth 8000 in
unseal Rat.add Rat.mul Rat.inv in
/-- C3.  Three resolution-10 HexFeatures sharing one resolution-8 ancestor,
all dated "2020-01-10", with `value` 10.0 / 20.0 / null: aggregation to
resolution 8 with daily granularity and the `mean` strategy yields exactly
one group with `value = 15`, `count = 3` and `date = "2020-01-10"`. -/
theorem C3_end_to_end_scenario :
    h3_aggregation gmUnit frameScenario none 8 (some ("daily")) "mean" false =
      .ok [{ hex := cell8, date := "2020-01-10", value := some 15, count := 3, geometry := none }] := by
  decide

/-- C4, counterexample.  For input date "2020-01-15", monthly bucketing
emits output date "2020-01-01" (not "2020-01") and yearly bucketing also
emits "2020-01-01" (not "2020"): lines 128-129 re-parse the bucket label
with `pd.to_datetime` and re-render it with `strftime('%Y-%m-%d')`. -/
theorem C4_counterexample_truncated_labels_reexpanded :
    (h3_aggregation gmUnit frameJan15 none 8 (some ("monthly")) "mean" false =
       .ok [{ hex := cell8, date := "2020-01-01", value := none, count := 1, geometry := none }]
     ∧ "2020-01-01" ≠ "2020-01")
    ∧ (h3_aggregation gmUnit frameJan15 none 8 (some ("yearly")) "mean" false =
         .ok [{ hex := cell8, date := "2020-01-01", value := none, count := 1, geometry := none }]
       ∧ "2020-01-01" ≠ "2020") := by
  exact ⟨⟨by decide, by decide⟩, ⟨by decide, by decide⟩⟩

/-- C4, amended.  The *grouping key* is the calendar truncation (two dates
in the same month fall into one monthly group), but the *emitted* date field
is the bucket label re-parsed and re-rendered as `%Y-%m-%d`, i.e. the first
calendar day of the bucket: monthly and yearly bucketing of January 2020
dates both emit "2020-01-01". -/
theorem C4_amended_bucket_key_and_output_date :
    h3_aggregation gmUnit frameSameMonth none 8 (some ("monthly")) "mean" false =
      .ok [{ hex := cell8, date := "2020-01-01", value := none, count := 2, geometry := none }]
    ∧ h3_aggregation gmUnit frameSameMonth none 8 (some ("yearly")) "mean" false =
      .ok [{ hex := cell8, date := "2020-01-01", value := none, count := 2, geometry := none }] := by
  exact ⟨by decide, by decide⟩

/-- C5, code evaluated at the failing input.  With `time_agg=None`, two
features with the same resolution-8 parent but different dates produce
**two** output groups, each carrying a `date` field: line 78 sets
`group_cols = ['parent_hex','date']` although the adjacent comment (line 77)
and the spec say the group key is the parent cell alone with no date in the
output. -/
theorem C5_time_agg_none_groups_by_parent_and_date :
    h3_aggregation gmUnit frameTwoDates none 8 none ("mean") false = .ok outTwoDatesU
    ∧ outTwoDatesU.length = 2 := by
  exact ⟨by decide, by decide⟩

/-- C2, counterexample.  A feature whose `date` is null is silently dropped:
with `time_agg=None` the group key includes the `date` column and pandas
`groupby` drops null keys, so the output is empty and the counts sum to 0,
not to the input length 1. -/
theorem C2_counterexample_null_date_dropped :
    h3_aggregation gmUnit frameNullDate none 8 none ("mean") false = .ok []
    ∧ (([] : List (OutRow Unit)).map OutRow.count).sum ≠ frameNullDate.rows.length := by
  exact ⟨by decide, by decide⟩

end H3Forge
